import Mathlib

/-!
Verification development for the nomo-fomo DCA bot (TypeScript sources).

Shallow embedding conventions:
* JavaScript `number` values that hold prices, percentages and USD amounts are
  modelled as exact rationals (`ℚ`); IEEE-754 rounding is not modelled.
* JavaScript `bigint` values (raw token units, lamport tip balances) are
  modelled as `ℤ`.  BigInt division truncates toward zero, so it is modelled
  with `Int.tdiv`.
* Calls to external collaborators (Jupiter quote/swap, RPC balance queries,
  signature confirmation, price lookup) are modelled as explicit inputs to the
  step functions: the values a call returned, or a flag saying it threw.
  Notification delivery (`notify.send`) swallows its own errors in the source
  and never mutates bot state, so it is not modelled.  CSV appends (`logTrade`)
  are likewise modelled as always succeeding.
* The repository contains two generations of `DCABot.execSellAll`:
  the v3.2 one (`index.ts` / `src/dcaBot.ts`) embedded as `execSellAllMid`,
  and the v4 one (the newer `dcaBot.ts`) embedded as `execSellAllV4`, which
  adds the zero-balance guard and the worst-case-proceeds safety check.
  `execBuy` is textually identical in both generations.
-/

/-- One recorded buy (interface `BuyEntry` in `config.ts`): execution price in
USD, lamports spent, raw token units received (`bigint`). -/
structure BuyEntry where
  price : ℚ
  lamports : ℤ
  tokensRaw : ℤ
  deriving DecidableEq, Repr

/-- One completed-sell summary (interface `SellStat`): timestamp and the
realized PnL in USD, SOL and percent. -/
structure SellStat where
  ts : ℤ
  diffUsd : ℚ
  diffSol : ℚ
  diffPct : ℚ
  deriving DecidableEq, Repr

/-- The persisted ladder state (`StateStore` fields): tracked mint, buys,
sells, and the accrued-but-unsent tip balance in lamports (`bigint`). -/
structure StateStore where
  tokenMint : String
  buys : List BuyEntry
  sells : List SellStat
  pendingTipLamports : ℤ
  deriving DecidableEq, Repr

/-- The in-memory mutable state of a `DCABot` instance that the decision logic
reads and writes: the store, the paused-for-funds flag, and `tokenMult`
(10 ^ tokenDecimals, set once in `init`). -/
structure BotState where
  store : StateStore
  pausedForNoFunds : Bool
  tokenMult : ℤ
  deriving DecidableEq, Repr

/-- The configuration fields of `BotConfig` that the decision logic uses. -/
structure BotConfig where
  toTokenMint : String
  initialBuyLamports : ℤ
  maxBuys : ℕ
  dcaVolMult : ℚ
  dcaPctMult : ℚ
  buyDropPct : ℚ
  sellProfitPct : ℚ
  bollingerNoBuy : Bool
  proVersion : Bool
  deriving DecidableEq, Repr

/-- `human(u) = Number(u) / Number(this.tokenMult)`: raw token units as a
human-readable token amount. -/
def humanQ (tokenMult : ℤ) (u : ℤ) : ℚ := (u : ℚ) / (tokenMult : ℚ)

/-- `buys.reduce((s, b) => s + b.tokensRaw, 0n)`. -/
def sumTokensRaw (buys : List BuyEntry) : ℤ := (buys.map (·.tokensRaw)).sum

/-- `buys.reduce((s, b) => s + b.lamports, 0)`. -/
def sumLamports (buys : List BuyEntry) : ℤ := (buys.map (·.lamports)).sum

/-- `DCABot.avgPrice`: 0 when no tokens are recorded, otherwise the total USD
cost divided by the human-readable total token amount. -/
def avgPrice (tokenMult : ℤ) (buys : List BuyEntry) : ℚ :=
  let totalRaw := sumTokensRaw buys
  if totalRaw = 0 then 0
  else (buys.map (fun b => b.price * humanQ tokenMult b.tokensRaw)).sum /
    humanQ tokenMult totalRaw

/-- `DCABot.nextSize` (v4 `dcaBot.ts`):
`Math.floor(initialBuyLamports * Math.pow(dcaVolMult, buyIndex))`. -/
def nextSize (cfg : BotConfig) (buyIndex : ℕ) : ℤ :=
  ⌊(cfg.initialBuyLamports : ℚ) * cfg.dcaVolMult ^ buyIndex⌋

/-- `DCABot.nextDropPct`: `buyDropPct * Math.pow(dcaPctMult, buyIndex)`. -/
def nextDropPct (cfg : BotConfig) (buyIndex : ℕ) : ℚ :=
  cfg.buyDropPct * cfg.dcaPctMult ^ buyIndex

/-- The sell threshold computed each tick:
`sellAbove = avgPrice() * (1 + sellProfitPct / 100)`. -/
def sellTriggerOf (cfg : BotConfig) (tokenMult : ℤ) (buys : List BuyEntry) : ℚ :=
  avgPrice tokenMult buys * (1 + cfg.sellProfitPct / 100)

/-- Result of `DCABot.detectUnderflowAndReset` (v4): whether the ladder was
reset, the state afterwards, and whether `state.save()` was invoked. -/
structure UnderflowResult where
  reset : Bool
  state : BotState
  saved : Bool
  deriving DecidableEq, Repr

/-- `DCABot.detectUnderflowAndReset` (v4 `dcaBot.ts`): compares the on-chain
raw balance with `expectedRaw * 9n / 10n` (BigInt division truncates toward
zero, hence `Int.tdiv`); on underflow it clears `buys` only and persists. -/
def detectUnderflowAndReset (st : BotState) (onChainRaw : ℤ) : UnderflowResult :=
  let expectedRaw := sumTokensRaw st.store.buys
  if onChainRaw < Int.tdiv (expectedRaw * 9) 10 then
    ⟨true, { st with store := { st.store with buys := [] } }, true⟩
  else
    ⟨false, st, false⟩

/-- The token-switch reset inside `DCABot.init`: when a persisted mint exists
and differs from the configured one, clear buys, sells and the pending tip;
in all cases adopt the configured mint (the state is then saved). -/
def initTokenSwitch (cfg : BotConfig) (st : BotState) : BotState :=
  if st.store.tokenMint ≠ "" ∧ st.store.tokenMint ≠ cfg.toTokenMint then
    { st with store :=
        { tokenMint := cfg.toTokenMint, buys := [], sells := [],
          pendingTipLamports := 0 } }
  else
    { st with store := { st.store with tokenMint := cfg.toTokenMint } }

/-- Outcome of the Jupiter quote/swap/confirm pipeline inside `execBuy`:
either the quote or swap call threw (with or without `transactionLogs`
containing "insufficient lamports"), or a swap was submitted with the quoted
`outAmount` and its confirmation either succeeded within the deadline
(`confirm` returned true) or failed/timed out. -/
inductive SwapResult where
  | swapThrew (insufficientLogs : Bool)
  | submitted (outAmount : ℤ) (confirmed : Bool)
  deriving DecidableEq, Repr

/-- Result of `execBuy`: whether it threw, and the bot state afterwards. -/
structure BuyResult where
  threw : Bool
  state : BotState
  deriving DecidableEq, Repr

/-- `DCABot.execBuy` (identical in both generations).  The pro-tier balance
pre-check throws outside the try block; inside it, an error whose
`transactionLogs` mention "insufficient lamports" sets the pause flag and
returns quietly, any other error (including the explicit throw on a failed or
timed-out confirmation) propagates.  The buy record is appended exactly after
`confirm` reports confirmed/finalized. -/
def execBuy (st : BotState) (pro : Bool) (balance lamports : ℤ) (priceUSD : ℚ)
    (r : SwapResult) : BuyResult :=
  if pro = true ∧ balance < lamports then
    ⟨true, st⟩
  else
    match r with
    | .swapThrew insufficientLogs =>
        if insufficientLogs then
          ⟨false, { st with pausedForNoFunds := true }⟩
        else
          ⟨true, st⟩
    | .submitted outAmount confirmed =>
        if confirmed then
          ⟨false, { st with store := { st.store with
              buys := st.store.buys ++ [⟨priceUSD, lamports, outAmount⟩] } }⟩
        else
          ⟨true, st⟩

/-- Outcome of the tip transfer inside the tip-jar block: `sendTransaction`
threw, or it was sent but `confirm` failed/timed out, or it confirmed. -/
inductive TipResult where
  | sendThrew
  | notConfirmed
  | confirmedTip
  deriving DecidableEq, Repr

/-- How a run of `execSellAll` ended (a ghost observation of the control
path taken; `noTokens` is the v3.2 `totalRaw === 0n` early return, `zeroReset`
the v4 `sellRaw === 0n` ladder reset, `skipped` the v4 worst-case-proceeds
skip, `notConfirmed` the throw on a failed/timed-out sell confirmation,
`tipSendThrew`/`tipRetry` the two tip-failure exits, `done` full
completion). -/
inductive SellTrace where
  | noTokens
  | zeroReset
  | skipped
  | notConfirmed
  | tipSendThrew
  | tipRetry
  | done
  deriving DecidableEq, Repr

/-- `BigInt(Math.floor((tipUsd / solUsd) * 1e9))` with `tipUsd = diffUsd * 0.01`,
computed exactly over ℚ (division by a zero price yields 0 rather than the
JavaScript Infinity, which cannot arise for a real price). -/
def tipLam (diffUsd solUsd : ℚ) : ℤ :=
  ⌊diffUsd * (1 / 100) / solUsd * 1000000000⌋

/-- Result of the tip-jar block: store afterwards, the paused flag afterwards,
whether the block threw, and the exit path. -/
structure TipOut where
  store : StateStore
  paused : Bool
  threw : Bool
  trace : SellTrace
  deriving DecidableEq, Repr

/-- The TIP-JAR block at the end of `execSellAll` (identical in both
generations), including the `pausedForNoFunds = false` statement that follows
it: a positive tip amount is accrued; if the accrued value is worth at least
$0.01 a transfer is attempted and the pending balance is zeroed only on a
confirmed transfer; the early `return` on a failed transfer (and a thrown
`sendTransaction`) skip the flag-clearing statement. -/
def tipJar (store : StateStore) (paused : Bool) (diffUsd solUsd : ℚ)
    (tr : TipResult) : TipOut :=
  let tipLamports := tipLam diffUsd solUsd
  if 0 < tipLamports then
    let store1 := { store with
      pendingTipLamports := store.pendingTipLamports + tipLamports }
    let pendingTipSol : ℚ := (store1.pendingTipLamports : ℚ) / 1000000000
    if 1 / 100 ≤ pendingTipSol * solUsd then
      match tr with
      | .sendThrew => ⟨store1, paused, true, .tipSendThrew⟩
      | .notConfirmed => ⟨store1, paused, false, .tipRetry⟩
      | .confirmedTip =>
          ⟨{ store1 with pendingTipLamports := 0 }, false, false, .done⟩
    else
      ⟨store1, false, false, .done⟩
  else
    ⟨store, false, false, .done⟩

/-- The collaborator responses consumed by one `execSellAll` run: the token
account balance, the quote fields (`priceImpactPct`, `otherAmountThreshold`,
`outAmount`), the cached SOL/USD price, whether the sell confirmation
succeeded, the tip-transfer outcome, and the clock value for the appended
`SellStat`. -/
structure SellEnv where
  onChainRaw : ℤ
  priceImpactPct : ℚ
  otherAmountThreshold : ℤ
  outAmount : ℤ
  solUsd : ℚ
  confirmed : Bool
  tipResult : TipResult
  now : ℤ
  deriving DecidableEq, Repr

/-- Result of `execSellAll`: whether it threw, the bot state afterwards, the
raw amount submitted to the quote/swap collaborator (none when no quote was
requested), and the exit path taken. -/
structure SellResult where
  threw : Bool
  state : BotState
  submitted : Option ℤ
  trace : SellTrace
  deriving DecidableEq, Repr

/-- `DCABot.execSellAll`, v4 `dcaBot.ts`: cap the sell size at the on-chain
balance, reset the ladder when there is nothing to sell, skip the sell when
the worst-case proceeds are below the profit-plus-impact target, throw on a
failed confirmation, and otherwise record the sell, clear the buys and run
the tip-jar block. -/
def execSellAllV4 (cfg : BotConfig) (st : BotState) (env : SellEnv) : SellResult :=
  let totalRaw := sumTokensRaw st.store.buys
  let sellRaw := if env.onChainRaw < totalRaw then env.onChainRaw else totalRaw
  if sellRaw = 0 then
    ⟨false, { st with store := { st.store with buys := [] } }, none, .zeroReset⟩
  else
    let minSol : ℚ := (env.otherAmountThreshold : ℚ) / 1000000000
    let worstCaseUsd := minSol * env.solUsd
    let costSol : ℚ := (sumLamports st.store.buys : ℚ) / 1000000000
    let costUsd := costSol * env.solUsd
    let neededUsd := costUsd * (1 + cfg.sellProfitPct / 100 + env.priceImpactPct / 100)
    if worstCaseUsd < neededUsd then
      ⟨false, st, some sellRaw, .skipped⟩
    else if env.confirmed = false then
      ⟨true, st, some sellRaw, .notConfirmed⟩
    else
      let solOut : ℚ := (env.outAmount : ℚ) / 1000000000
      let usdOut := solOut * env.solUsd
      let diffUsd := usdOut - costUsd
      let diffSol := solOut - costSol
      let diffPct := if costUsd = 0 then 0 else diffUsd / costUsd * 100
      let store1 := { st.store with
        sells := st.store.sells ++ [⟨env.now, diffUsd, diffSol, diffPct⟩],
        buys := [] }
      let t := tipJar store1 st.pausedForNoFunds diffUsd env.solUsd env.tipResult
      ⟨t.threw, { st with store := t.store, pausedForNoFunds := t.paused },
        some sellRaw, t.trace⟩

/-- `DCABot.execSellAll`, v3.2 (`index.ts` and the intermediate
`src/dcaBot.ts`): early return when no tokens are recorded, no zero-balance
guard and no worst-case safety check, otherwise the same confirm/record/tip
pipeline as v4. -/
def execSellAllMid (st : BotState) (env : SellEnv) : SellResult :=
  let totalRaw := sumTokensRaw st.store.buys
  if totalRaw = 0 then
    ⟨false, st, none, .noTokens⟩
  else
    let sellRaw := if env.onChainRaw < totalRaw then env.onChainRaw else totalRaw
    if env.confirmed = false then
      ⟨true, st, some sellRaw, .notConfirmed⟩
    else
      let solOut : ℚ := (env.outAmount : ℚ) / 1000000000
      let usdOut := solOut * env.solUsd
      let costSol : ℚ := (sumLamports st.store.buys : ℚ) / 1000000000
      let costUsd := costSol * env.solUsd
      let diffUsd := usdOut - costUsd
      let diffSol := solOut - costSol
      let diffPct := if costUsd = 0 then 0 else diffUsd / costUsd * 100
      let store1 := { st.store with
        sells := st.store.sells ++ [⟨env.now, diffUsd, diffSol, diffPct⟩],
        buys := [] }
      let t := tipJar store1 st.pausedForNoFunds diffUsd env.solUsd env.tipResult
      ⟨t.threw, { st with store := t.store, pausedForNoFunds := t.paused },
        some sellRaw, t.trace⟩

/-- The action a tick ended up taking (a ghost observation of the branch of
`tick` that ran; buy actions record the lamports handed to `execBuy`). -/
inductive TickAction where
  | underflowReset
  | firstBuy (lamports : ℤ)
  | rungBuy (lamports : ℤ)
  | sellAll
  | pausedHold
  | capHold
  | noBuyZoneHold
  | hold
  deriving DecidableEq, Repr

/-- The collaborator responses consumed by one `tick` run: the manual-sale
scan result, the balance used by the underflow reconciliation, the derived
token price in USD, the wallet balance for the pro-tier pre-check, and the
environments handed to `execBuy` / `execSellAll` if those run. -/
structure TickEnv where
  manualSale : Bool
  uOnChainRaw : ℤ
  price : ℚ
  balance : ℤ
  buyRes : SwapResult
  sellEnv : SellEnv
  deriving DecidableEq, Repr

/-- The decision body of `DCABot.tick` (v4 `dcaBot.ts`) after the manual-sale
reset and the underflow reconciliation: first buy on an empty ladder,
otherwise threshold computation and the buy/sell/hold decision on the
(possibly already reset) state `st0`. -/
def tickCore (cfg : BotConfig) (st0 : BotState) (env : TickEnv) : BotState × TickAction :=
  if h : st0.store.buys = [] then
    ((execBuy st0 cfg.proVersion env.balance cfg.initialBuyLamports env.price
        env.buyRes).state,
      .firstBuy cfg.initialBuyLamports)
  else
    let lastBuyPrice := (st0.store.buys.getLast h).price
    let idx := st0.store.buys.length
    let buyBelow := lastBuyPrice * (1 - nextDropPct cfg idx / 100)
    let sellAbove := sellTriggerOf cfg st0.tokenMult st0.store.buys
    let nextLamports : Option ℤ :=
      if cfg.maxBuys = 0 ∨ idx < cfg.maxBuys then some (nextSize cfg idx) else none
    if env.price ≤ buyBelow then
      if st0.pausedForNoFunds then
        (st0, .pausedHold)
      else if cfg.maxBuys ≠ 0 ∧ cfg.maxBuys ≤ st0.store.buys.length then
        (st0, .capHold)
      else
        match nextLamports with
        | some lam =>
            ((execBuy st0 cfg.proVersion env.balance lam env.price env.buyRes).state,
              .rungBuy lam)
        | none => (st0, .hold)
    else if sellAbove ≤ env.price then
      ((execSellAllV4 cfg st0 env.sellEnv).state, .sellAll)
    else
      (st0, .hold)

/-- `DCABot.tick` (v4 `dcaBot.ts`): manual-sale reset (pro tier), underflow
reconciliation with early return, then the `tickCore` decision body.  The
surrounding try/catch only logs, so a thrown executor leaves the state it
threw with. -/
def tick (cfg : BotConfig) (st : BotState) (env : TickEnv) : BotState × TickAction :=
  let st0 := if cfg.proVersion = true ∧ env.manualSale = true then
    { st with store := { st.store with buys := [] } } else st
  let u := detectUnderflowAndReset st0 env.uOnChainRaw
  if u.reset then
    (u.state, .underflowReset)
  else
    tickCore cfg st0 env

/-- Whether the no-buy-zone guard fires: the indicator band is available and
the current price is strictly above the upper band. -/
def bandBlocks (upper : Option ℚ) (price : ℚ) : Bool :=
  match upper with
  | some u => decide (u < price)
  | none => false

/-- Modelled from the spec: the repository wires a `BollingerBands` instance
into the `DCABot` constructor (`index.ts` bootstrap) and `config.ts` carries
`bollingerNoBuy`, but the `dcaBot.ts` revision whose `tick` consumes the band
is not among the sources.  Following the spec — "If `noBuyZoneEnabled` and
indicator band is available and `currentPrice > upperBand()`, buying is
suppressed this tick even if `currentPrice ≤ buyTrigger`" — this is
`tickCore` with the guard added in front of the rung-buy branch (the Empty
state's first buy is unconditional per the spec's state machine); `upper` is
the indicator's `upperBand` output for this tick. -/
def tickCoreNB (cfg : BotConfig) (st0 : BotState) (env : TickEnv)
    (upper : Option ℚ) : BotState × TickAction :=
  if h : st0.store.buys = [] then
    ((execBuy st0 cfg.proVersion env.balance cfg.initialBuyLamports env.price
        env.buyRes).state,
      .firstBuy cfg.initialBuyLamports)
  else
    let lastBuyPrice := (st0.store.buys.getLast h).price
    let idx := st0.store.buys.length
    let buyBelow := lastBuyPrice * (1 - nextDropPct cfg idx / 100)
    let sellAbove := sellTriggerOf cfg st0.tokenMult st0.store.buys
    let nextLamports : Option ℤ :=
      if cfg.maxBuys = 0 ∨ idx < cfg.maxBuys then some (nextSize cfg idx) else none
    if env.price ≤ buyBelow then
      if cfg.bollingerNoBuy = true ∧ bandBlocks upper env.price = true then
        (st0, .noBuyZoneHold)
      else if st0.pausedForNoFunds then
        (st0, .pausedHold)
      else if cfg.maxBuys ≠ 0 ∧ cfg.maxBuys ≤ st0.store.buys.length then
        (st0, .capHold)
      else
        match nextLamports with
        | some lam =>
            ((execBuy st0 cfg.proVersion env.balance lam env.price env.buyRes).state,
              .rungBuy lam)
        | none => (st0, .hold)
    else if sellAbove ≤ env.price then
      ((execSellAllV4 cfg st0 env.sellEnv).state, .sellAll)
    else
      (st0, .hold)

/-- The spec-modelled tick with the no-buy-zone guard: the same manual-sale
reset and underflow reconciliation as `tick`, then the guarded decision
body. -/
def tickNB (cfg : BotConfig) (st : BotState) (env : TickEnv) (upper : Option ℚ) :
    BotState × TickAction :=
  let st0 := if cfg.proVersion = true ∧ env.manualSale = true then
    { st with store := { st.store with buys := [] } } else st
  let u := detectUnderflowAndReset st0 env.uOnChainRaw
  if u.reset then
    (u.state, .underflowReset)
  else
    tickCoreNB cfg st0 env upper

/-- The rolling-window indicator (`bollingerBands.ts`): the configured period,
the standard-deviation multiplier and the stored price window. -/
structure BollingerBands where
  period : ℕ
  stdDevMultiplier : ℚ
  prices : List ℚ
  deriving DecidableEq, Repr

/-- `BollingerBands.addPrice`: push the sample, then shift the oldest one out
when the window exceeds the period. -/
def addPrice (bb : BollingerBands) (price : ℚ) : BollingerBands :=
  let ps := bb.prices ++ [price]
  { bb with prices := if bb.period < ps.length then ps.tail else ps }

/-- Feeding a whole observation sequence into the indicator. -/
def observeAll (bb : BollingerBands) (obs : List ℚ) : BollingerBands :=
  obs.foldl addPrice bb

/-- `BollingerBands.mean`: null below `period` samples, otherwise the sum
divided by the window length. -/
def meanO (bb : BollingerBands) : Option ℚ :=
  if bb.prices.length < bb.period then none
  else some (bb.prices.sum / (bb.prices.length : ℚ))

/-- The variance computed inside `BollingerBands.stdDev`: null when `mean` is
null, otherwise the mean squared deviation, dividing by the window length N
(population variance, not the N−1 sample variance). -/
def varianceO (bb : BollingerBands) : Option ℚ :=
  (meanO bb).map (fun m =>
    (bb.prices.map (fun p => (p - m) ^ 2)).sum / (bb.prices.length : ℚ))

/-- `BollingerBands.stdDev` returns `Math.sqrt(variance)`; over ℚ the square
root is characterised relationally: `s` is the indicator's spread exactly when
the variance is available and `s` is its non-negative square root (for the
windows the theorems touch the root is exact, e.g. 0 for a constant
window). -/
def spreadIs (bb : BollingerBands) (s : ℚ) : Prop :=
  ∃ v, varianceO bb = some v ∧ 0 ≤ s ∧ s ^ 2 = v

/-- `BollingerBands.upperBand`: `mean + stdDevMultiplier * stdDev` when both
are available. -/
def upperBandIs (bb : BollingerBands) (u : ℚ) : Prop :=
  ∃ m s, meanO bb = some m ∧ spreadIs bb s ∧ u = m + bb.stdDevMultiplier * s

/-- `BollingerBands.lowerBand`: `mean - stdDevMultiplier * stdDev` when both
are available. -/
def lowerBandIs (bb : BollingerBands) (l : ℚ) : Prop :=
  ∃ m s, meanO bb = some m ∧ spreadIs bb s ∧ l = m - bb.stdDevMultiplier * s

/-- A JSON value as handled by `StateStore.save`/`load`.  `tagged i` denotes
the JSON string `"<decimal of i>n"` produced by the save replacer
(`typeof v === "bigint" ? `${v}n` : v`); it is kept as its own constructor so
that the reviver's treatment of it — `BigInt` applied to the decimal text —
is exact by construction, while `str` covers every other string (in
particular the persisted `tokenMint`).  `big` is a revived JavaScript BigInt
value, which never occurs in freshly parsed JSON. -/
inductive JVal where
  | num (q : ℚ)
  | str (s : String)
  | tagged (i : ℤ)
  | big (i : ℤ)
  | arr (l : List JVal)
  | obj (l : List (String × JVal))

/-- JavaScript `s.endsWith("n")`: the last character is `n`. -/
def endsWithN (s : String) : Bool := s.data.getLast? = some 'n'

/-- JavaScript `s.slice(0, -1)`: drop the last character. -/
def sliceInit (s : String) : String := ⟨s.data.dropLast⟩

/-- One decimal digit, else none. -/
def decDigit? (c : Char) : Option ℕ :=
  if '0' ≤ c ∧ c ≤ '9' then some (c.toNat - 48) else none

/-- A non-empty all-decimal character run as a natural number, else none. -/
def decDigits? : List Char → Option ℕ
  | [] => none
  | l => go l 0
where
  go : List Char → ℕ → Option ℕ
    | [], acc => some acc
    | c :: cs, acc =>
        match decDigit? c with
        | some d => go cs (acc * 10 + d)
        | none => none

/-- JavaScript `BigInt(s)` on the strings this model meets: the empty string
is 0n, an optional minus sign followed by decimal digits parses, anything
else throws (`none`).  (The 0x/0o/0b and whitespace forms of the BigInt
grammar never arise from the save replacer.) -/
def bigIntOfString? (s : String) : Option ℤ :=
  match s.data with
  | [] => some 0
  | '-' :: rest => (decDigits? rest).map (fun n => -(n : ℤ))
  | l => (decDigits? l).map (fun n => (n : ℤ))

/-- The `JSON.parse` reviver of `StateStore.load`, applied bottom-up:
`typeof v === "string" && v.endsWith("n") ? BigInt(v.slice(0, -1)) : v`.
`none` models the `BigInt` call throwing, which the surrounding try/catch
turns into quarantining the snapshot and starting fresh. -/
def revive : JVal → Option JVal
  | .num q => some (.num q)
  | .str s =>
      if endsWithN s then (bigIntOfString? (sliceInit s)).map .big
      else some (.str s)
  | .tagged i => some (.big i)
  | .big i => some (.big i)
  | .arr l => (revList l).map .arr
  | .obj l => (revFields l).map .obj
where
  revList : List JVal → Option (List JVal)
    | [] => some []
    | v :: vs => do pure ((← revive v) :: (← revList vs))
  revFields : List (String × JVal) → Option (List (String × JVal))
    | [] => some []
    | (k, v) :: vs => do pure ((k, (← revive v)) :: (← revFields vs))

/-- `StateStore.save` for one buy entry: `price` and `lamports` are plain
numbers, `tokensRaw` is a bigint and is replaced by its tagged string. -/
def encodeBuy (b : BuyEntry) : JVal :=
  .obj [("price", .num b.price), ("lamports", .num (b.lamports : ℚ)),
        ("tokensRaw", .tagged b.tokensRaw)]

/-- `StateStore.save` for one sell summary: four plain numbers. -/
def encodeSell (s : SellStat) : JVal :=
  .obj [("ts", .num (s.ts : ℚ)), ("diffUsd", .num s.diffUsd),
        ("diffSol", .num s.diffSol), ("diffPct", .num s.diffPct)]

/-- `StateStore.save`: the JSON document written to `dca_state.json`, with
every bigint replaced by its `n`-tagged decimal string. -/
def stateSave (st : StateStore) : JVal :=
  .obj [("tokenMint", .str st.tokenMint),
        ("buys", .arr (st.buys.map encodeBuy)),
        ("sells", .arr (st.sells.map encodeSell)),
        ("pendingTipLamports", .tagged st.pendingTipLamports)]

/-- Field lookup on a parsed JSON object. -/
def lookupField (l : List (String × JVal)) (k : String) : Option JVal :=
  (l.find? (fun p => p.1 = k)).map (·.2)

/-- Reading one buy entry back.  The JavaScript loader performs no shape
validation; for the documents this model meets the shapes always match, and a
revived bigint sitting in a number-typed slot (impossible for saved
documents) is collapsed to `none`. -/
def decodeBuy : JVal → Option BuyEntry
  | .obj f => do
      let price ← match lookupField f "price" with
        | some (.num q) => some q | _ => none
      let lamports ← match lookupField f "lamports" with
        | some (.num q) => if q.den = 1 then some q.num else none
        | _ => none
      let tokensRaw ← match lookupField f "tokensRaw" with
        | some (.big i) => some i | _ => none
      pure ⟨price, lamports, tokensRaw⟩
  | _ => none

/-- Reading one sell summary back. -/
def decodeSell : JVal → Option SellStat
  | .obj f => do
      let ts ← match lookupField f "ts" with
        | some (.num q) => if q.den = 1 then some q.num else none
        | _ => none
      let diffUsd ← match lookupField f "diffUsd" with
        | some (.num q) => some q | _ => none
      let diffSol ← match lookupField f "diffSol" with
        | some (.num q) => some q | _ => none
      let diffPct ← match lookupField f "diffPct" with
        | some (.num q) => some q | _ => none
      pure ⟨ts, diffUsd, diffSol, diffPct⟩
  | _ => none

/-- The field extraction of `StateStore.load` after the reviver ran:
`obj.tokenMint ?? ""`, `obj.buys ?? []`, `obj.sells ?? []`,
`BigInt(obj.pendingTipLamports ?? 0)`.  A revived bigint sitting in the
string-typed `tokenMint` slot (a persisted mint whose text ended in `n` and
parsed as an integer) is collapsed to `none` here; the JavaScript runtime
instead stores the ill-typed BigInt, so in both readings the state is not
restored.  The theorems only exercise this function where the distinction
does not matter. -/
def decodeStateStore : JVal → Option StateStore
  | .obj f => do
      let tokenMint ← match lookupField f "tokenMint" with
        | some (.str s) => some s | none => some "" | _ => none
      let buys ← match lookupField f "buys" with
        | some (.arr l) => l.mapM decodeBuy | none => some [] | _ => none
      let sells ← match lookupField f "sells" with
        | some (.arr l) => l.mapM decodeSell | none => some [] | _ => none
      let pendingTipLamports ← match lookupField f "pendingTipLamports" with
        | some (.big i) => some i
        | some (.num q) => if q.den = 1 then some q.num else none
        | none => some 0 | _ => none
      pure ⟨tokenMint, buys, sells, pendingTipLamports⟩
  | _ => none

/-- `save()` followed by `load()`: parse the saved document with the reviver
and extract the fields.  `Except.error ()` models the catch branch of
`load` — the snapshot is renamed to a `.corrupt_` file and the store starts
fresh, i.e. the state is not restored. -/
def saveLoad (st : StateStore) : Except Unit StateStore :=
  match revive (stateSave st) with
  | none => .error ()
  | some j =>
      match decodeStateStore j with
      | some st1 => .ok st1
      | none => .error ()

/-! ## Helper lemmas -/

theorem ite_lt_eq_min (x y : ℤ) : (if x < y then x else y) = min x y := by
  rw [min_def]
  split <;> split <;> omega

theorem nextSize_zero (cfg : BotConfig) : nextSize cfg 0 = cfg.initialBuyLamports := by
  simp [nextSize]

/-! ## C10 — the sell amount is capped by both the ledger and the chain -/

/-- C10: in both generations of `execSellAll`, the raw amount handed to the
quote/swap collaborator is the minimum of the on-chain token balance and the
recorded `tokensRaw` total, so the engine never submits more than it recorded
buying nor more than the wallet holds. -/
theorem c10_sell_amount_min :
    (∀ cfg st env a, (execSellAllV4 cfg st env).submitted = some a →
      a = min env.onChainRaw (sumTokensRaw st.store.buys) ∧
      a ≤ sumTokensRaw st.store.buys ∧ a ≤ env.onChainRaw)
    ∧ (∀ st env a, (execSellAllMid st env).submitted = some a →
      a = min env.onChainRaw (sumTokensRaw st.store.buys) ∧
      a ≤ sumTokensRaw st.store.buys ∧ a ≤ env.onChainRaw) := by
  constructor
  · intro cfg st env a h
    simp only [execSellAllV4, ite_lt_eq_min] at h
    split at h
    · simp at h
    · split at h
      · simp only [Option.some.injEq] at h
        refine ⟨h.symm, ?_, ?_⟩ <;> simp [← h]
      · split at h <;>
        · simp only [Option.some.injEq] at h
          refine ⟨h.symm, ?_, ?_⟩ <;> simp [← h]
  · intro st env a h
    simp only [execSellAllMid, ite_lt_eq_min] at h
    split at h
    · simp at h
    · split at h <;>
      · simp only [Option.some.injEq] at h
        refine ⟨h.symm, ?_, ?_⟩ <;> simp [← h]

/-- Concrete state/environment used by several witnesses: one recorded buy of
50 raw tokens at price 1 with 100 lamports, a healthy on-chain balance, and a
swap pipeline that confirms. -/
def sampleCfg : BotConfig := ⟨"MintA", 100, 0, 2, 1, 10, 5 / 2, true, false⟩

def sampleSellEnv : SellEnv :=
  ⟨50, 0, 10000000000, 10000000000, 1, true, .confirmedTip, 123⟩

def sampleSt : BotState := ⟨⟨"MintA", [⟨1, 100, 50⟩], [], 0⟩, false, 1000000⟩

def sampleEnv : TickEnv := ⟨false, 50, 1 / 2, 0, .submitted 5 true, sampleSellEnv⟩

theorem c10_sell_amount_min_witness :
    (execSellAllV4 sampleCfg sampleSt sampleSellEnv).submitted = some 50 ∧
    50 ≤ sumTokensRaw sampleSt.store.buys ∧ 50 ≤ sampleSellEnv.onChainRaw := by
  have h : (execSellAllV4 sampleCfg sampleSt sampleSellEnv).submitted = some 50 := by
    norm_num [execSellAllV4, sumTokensRaw, sumLamports, tipJar, tipLam,
      sampleCfg, sampleSt, sampleSellEnv]
  exact ⟨h, (c10_sell_amount_min.1 sampleCfg sampleSt sampleSellEnv 50 h).2⟩

/-! ## C5 — rung sizing -/

/-- Inversion: a first-buy action of `tickCore` always spends
`initialBuyLamports`. -/
theorem tickCore_firstBuy (cfg : BotConfig) (st0 : BotState) (env : TickEnv)
    (lam : ℤ) (h : (tickCore cfg st0 env).2 = .firstBuy lam) :
    lam = cfg.initialBuyLamports := by
  simp only [tickCore] at h
  split at h
  · simpa using h.symm
  · split at h
    · split at h
      · simp at h
      · split at h
        · simp at h
        · split at h <;> simp at h
    · split at h <;> simp at h

/-- Inversion: a rung-buy action of `tickCore` happens on a non-empty,
non-paused ladder and spends `nextSize(buys.length)`. -/
theorem tickCore_rungBuy (cfg : BotConfig) (st0 : BotState) (env : TickEnv)
    (lam : ℤ) (h : (tickCore cfg st0 env).2 = .rungBuy lam) :
    st0.store.buys ≠ [] ∧ st0.pausedForNoFunds = false ∧
      lam = nextSize cfg st0.store.buys.length := by
  simp only [tickCore] at h
  split at h
  · simp at h
  · rename_i hne
    refine ⟨hne, ?_⟩
    split at h
    · split at h
      · simp at h
      · rename_i hp
        split at h
        · simp at h
        · split at h
          · rename_i heq
            simp only at h
            cases h
            split at heq
            · refine ⟨by simpa using hp, ?_⟩
              simpa using heq.symm
            · simp at heq
          · simp at h
    · split at h <;> simp at h

/-- C5: `nextSize(k) = ⌊initialBuyLamports · dcaVolMult^k⌋`; a tick's first
buy spends exactly `initialBuyLamports`, which equals `nextSize(0)`, and a
tick's rung buy at ladder index `k = buys.length` hands
`⌊initialBuyLamports · dcaVolMult^k⌋` lamports to `execBuy`. -/
theorem c5_rung_sizing :
    (∀ cfg k, nextSize cfg k = ⌊(cfg.initialBuyLamports : ℚ) * cfg.dcaVolMult ^ k⌋)
    ∧ (∀ cfg, nextSize cfg 0 = cfg.initialBuyLamports)
    ∧ (∀ cfg st env lam, (tick cfg st env).2 = .firstBuy lam →
        lam = cfg.initialBuyLamports ∧ lam = nextSize cfg 0)
    ∧ (∀ cfg st env lam, (tick cfg st env).2 = .rungBuy lam →
        lam = nextSize cfg st.store.buys.length ∧
        lam = ⌊(cfg.initialBuyLamports : ℚ) * cfg.dcaVolMult ^ st.store.buys.length⌋) := by
  refine ⟨fun cfg k => rfl, nextSize_zero, ?_, ?_⟩
  · intro cfg st env lam h
    simp only [tick] at h
    by_cases hms : cfg.proVersion = true ∧ env.manualSale = true
    · rw [if_pos hms] at h
      split at h
      · simp at h
      · have := tickCore_firstBuy cfg _ env lam h
        exact ⟨this, this.trans (nextSize_zero cfg).symm⟩
    · rw [if_neg hms] at h
      split at h
      · simp at h
      · have := tickCore_firstBuy cfg _ env lam h
        exact ⟨this, this.trans (nextSize_zero cfg).symm⟩
  · intro cfg st env lam h
    simp only [tick] at h
    by_cases hms : cfg.proVersion = true ∧ env.manualSale = true
    · rw [if_pos hms] at h
      split at h
      · simp at h
      · have hc := tickCore_rungBuy cfg _ env lam h
        simp at hc
    · rw [if_neg hms] at h
      split at h
      · simp at h
      · have hc := tickCore_rungBuy cfg _ env lam h
        exact ⟨hc.2.2, hc.2.2⟩

theorem c5_rung_sizing_witness :
    (tick sampleCfg sampleSt sampleEnv).2 = .rungBuy 200 ∧
    (200 : ℤ) = nextSize sampleCfg 1 := by
  have h : (tick sampleCfg sampleSt sampleEnv).2 = .rungBuy 200 := by
    norm_num [tick, tickCore, detectUnderflowAndReset, sumTokensRaw, sellTriggerOf,
      avgPrice, humanQ, nextDropPct, nextSize, execBuy, sampleCfg, sampleSt,
      sampleEnv, sampleSellEnv, Int.tdiv]
  exact ⟨h, by
    simpa [sampleSt] using (c5_rung_sizing.2.2.2 sampleCfg sampleSt sampleEnv 200 h).1⟩

/-! ## C3 — the on-chain underflow guard -/

/-- One buy of 11 raw tokens; an on-chain balance of 9 is below 90% of 11
(= 9.9), yet the guard does not fire, because the code compares against the
truncated BigInt quotient `11 * 9n / 10n = 9`. -/
def underflowSt : BotState := ⟨⟨"MintA", [⟨1, 100, 11⟩], [⟨7, 1, 2, 3⟩], 5⟩, false, 1000000⟩

/-- C3 counterexample: with recorded buys totalling 11 raw tokens and an
on-chain balance of 9 — strictly less than 90% of the recorded sum — the
reconciliation does NOT clear the buys, contradicting the claim's "less than
90%" reading. -/
theorem c3_counterexample :
    (9 : ℚ) < (9 / 10) * ((sumTokensRaw underflowSt.store.buys : ℤ) : ℚ) ∧
    (detectUnderflowAndReset underflowSt 9).reset = false ∧
    (detectUnderflowAndReset underflowSt 9).state = underflowSt := by
  have ht : Int.tdiv (sumTokensRaw underflowSt.store.buys * 9) 10 = 9 := by decide
  refine ⟨by norm_num [sumTokensRaw, underflowSt], ?_, ?_⟩ <;>
    simp [detectUnderflowAndReset, ht]

/-- C3 (amended): the reconciliation clears `buys` (and persists) exactly
when the on-chain balance is strictly below the BigInt-truncated quotient
`(9 · Σ tokensRaw) / 10` — not below the exact rational 90% — and in every
case it leaves `sells`, `pendingTipNative` and the pause flag unchanged;
when the guard does not fire the state is untouched and nothing is saved. -/
theorem c3_underflow_reset :
    ∀ st onChainRaw,
      ((detectUnderflowAndReset st onChainRaw).state.store.sells = st.store.sells ∧
       (detectUnderflowAndReset st onChainRaw).state.store.pendingTipLamports =
         st.store.pendingTipLamports ∧
       (detectUnderflowAndReset st onChainRaw).state.pausedForNoFunds =
         st.pausedForNoFunds) ∧
      ((detectUnderflowAndReset st onChainRaw).reset = true ↔
        onChainRaw < Int.tdiv (sumTokensRaw st.store.buys * 9) 10) ∧
      ((detectUnderflowAndReset st onChainRaw).reset = true →
        (detectUnderflowAndReset st onChainRaw).state.store.buys = [] ∧
        (detectUnderflowAndReset st onChainRaw).saved = true) ∧
      ((detectUnderflowAndReset st onChainRaw).reset = false →
        (detectUnderflowAndReset st onChainRaw).state = st ∧
        (detectUnderflowAndReset st onChainRaw).saved = false) := by
  intro st o
  simp only [detectUnderflowAndReset]
  split <;> simp_all

theorem c3_underflow_reset_witness :
    (detectUnderflowAndReset underflowSt 8).reset = true ∧
    (detectUnderflowAndReset underflowSt 8).state.store.buys = [] ∧
    (detectUnderflowAndReset underflowSt 8).state.store.sells =
      underflowSt.store.sells ∧
    (detectUnderflowAndReset underflowSt 8).state.store.pendingTipLamports = 5 := by
  have ht : Int.tdiv (sumTokensRaw underflowSt.store.buys * 9) 10 = 9 := by decide
  have hr : (detectUnderflowAndReset underflowSt 8).reset = true := by
    simp [detectUnderflowAndReset, ht]
  have h := c3_underflow_reset underflowSt 8
  exact ⟨hr, (h.2.2.1 hr).1, h.1.1, h.1.2.1.trans rfl⟩

/-! ## C4 — the pending-tip accrual -/

theorem execBuy_tip (st : BotState) (pro : Bool) (balance lamports : ℤ)
    (priceUSD : ℚ) (r : SwapResult) :
    (execBuy st pro balance lamports priceUSD r).state.store.pendingTipLamports =
      st.store.pendingTipLamports := by
  cases r <;> simp only [execBuy] <;> split <;> (try split) <;> rfl

theorem execBuy_sells (st : BotState) (pro : Bool) (balance lamports : ℤ)
    (priceUSD : ℚ) (r : SwapResult) :
    (execBuy st pro balance lamports priceUSD r).state.store.sells =
      st.store.sells := by
  cases r <;> simp only [execBuy] <;> split <;> (try split) <;> rfl

theorem detectUnderflow_tip (st : BotState) (o : ℤ) :
    (detectUnderflowAndReset st o).state.store.pendingTipLamports =
      st.store.pendingTipLamports := by
  simp only [detectUnderflowAndReset]
  split <;> rfl

theorem tipJar_pendingTip (store : StateStore) (paused : Bool) (diffUsd solUsd : ℚ)
    (tr : TipResult) :
    (tipJar store paused diffUsd solUsd tr).store.pendingTipLamports =
        store.pendingTipLamports ∨
    (0 < tipLam diffUsd solUsd ∧
      (tipJar store paused diffUsd solUsd tr).store.pendingTipLamports =
        store.pendingTipLamports + tipLam diffUsd solUsd) ∨
    (tipJar store paused diffUsd solUsd tr).store.pendingTipLamports = 0 := by
  simp only [tipJar]
  split
  · rename_i hpos
    split
    · cases tr
      · exact .inr (.inl ⟨hpos, rfl⟩)
      · exact .inr (.inl ⟨hpos, rfl⟩)
      · exact .inr (.inr rfl)
    · exact .inr (.inl ⟨hpos, rfl⟩)
  · exact .inl rfl

theorem tipJar_pendingTip_base (store : StateStore) (paused : Bool)
    (diffUsd solUsd : ℚ) (tr : TipResult) (base : ℤ)
    (hb : store.pendingTipLamports = base) :
    (tipJar store paused diffUsd solUsd tr).store.pendingTipLamports = base ∨
    (∃ d, 0 < d ∧
      (tipJar store paused diffUsd solUsd tr).store.pendingTipLamports = base + d) ∨
    (tipJar store paused diffUsd solUsd tr).store.pendingTipLamports = 0 := by
  subst hb
  rcases tipJar_pendingTip store paused diffUsd solUsd tr with h | ⟨hp, h⟩ | h
  · exact .inl h
  · exact .inr (.inl ⟨tipLam diffUsd solUsd, hp, h⟩)
  · exact .inr (.inr h)

theorem execSellAllV4_pendingTip (cfg : BotConfig) (st : BotState) (env : SellEnv) :
    (execSellAllV4 cfg st env).state.store.pendingTipLamports =
        st.store.pendingTipLamports ∨
    (∃ d, 0 < d ∧ (execSellAllV4 cfg st env).state.store.pendingTipLamports =
        st.store.pendingTipLamports + d) ∨
    (execSellAllV4 cfg st env).state.store.pendingTipLamports = 0 := by
  simp only [execSellAllV4]
  repeat' split
  all_goals first
    | exact tipJar_pendingTip_base _ _ _ _ _ _ rfl
    | exact .inl rfl

theorem execSellAllMid_pendingTip (st : BotState) (env : SellEnv) :
    (execSellAllMid st env).state.store.pendingTipLamports =
        st.store.pendingTipLamports ∨
    (∃ d, 0 < d ∧ (execSellAllMid st env).state.store.pendingTipLamports =
        st.store.pendingTipLamports + d) ∨
    (execSellAllMid st env).state.store.pendingTipLamports = 0 := by
  simp only [execSellAllMid]
  repeat' split
  all_goals first
    | exact tipJar_pendingTip_base _ _ _ _ _ _ rfl
    | exact .inl rfl

theorem execSellAllV4_tip_nonneg (cfg : BotConfig) (st : BotState) (env : SellEnv)
    (h : 0 ≤ st.store.pendingTipLamports) :
    0 ≤ (execSellAllV4 cfg st env).state.store.pendingTipLamports := by
  rcases execSellAllV4_pendingTip cfg st env with h1 | ⟨d, hd, h1⟩ | h1 <;> omega

theorem execSellAllMid_tip_nonneg (st : BotState) (env : SellEnv)
    (h : 0 ≤ st.store.pendingTipLamports) :
    0 ≤ (execSellAllMid st env).state.store.pendingTipLamports := by
  rcases execSellAllMid_pendingTip st env with h1 | ⟨d, hd, h1⟩ | h1 <;> omega

theorem tickCore_tip_nonneg (cfg : BotConfig) (st0 : BotState) (env : TickEnv)
    (h : 0 ≤ st0.store.pendingTipLamports) :
    0 ≤ (tickCore cfg st0 env).1.store.pendingTipLamports := by
  simp only [tickCore]
  split
  · simp only [execBuy_tip]
    exact h
  · split
    · split
      · exact h
      · split
        · exact h
        · split
          · simp only [execBuy_tip]
            exact h
          · exact h
    · split
      · exact execSellAllV4_tip_nonneg cfg st0 env.sellEnv h
      · exact h

theorem tick_tip_nonneg (cfg : BotConfig) (st : BotState) (env : TickEnv)
    (h : 0 ≤ st.store.pendingTipLamports) :
    0 ≤ (tick cfg st env).1.store.pendingTipLamports := by
  simp only [tick]
  by_cases hms : cfg.proVersion = true ∧ env.manualSale = true
  · rw [if_pos hms]
    split
    · rw [detectUnderflow_tip]
      exact h
    · exact tickCore_tip_nonneg cfg _ env h
  · rw [if_neg hms]
    split
    · rw [detectUnderflow_tip]
      exact h
    · exact tickCore_tip_nonneg cfg _ env h

/-- C4: the pending-tip balance is only ever left unchanged, increased by a
strictly positive accrual, or reset to zero.  `execBuy` and the underflow
reconciliation never touch it; the token-switch reset zeroes it; inside the
tip-jar block a non-positive tip amount accrues nothing, and unless the tip
transfer confirms, the (possibly increased) balance is kept exactly — intact
for retry; and every modelled operation preserves non-negativity. -/
theorem c4_pending_tip :
    (∀ st pro balance lamports priceUSD r,
      (execBuy st pro balance lamports priceUSD r).state.store.pendingTipLamports =
        st.store.pendingTipLamports)
    ∧ (∀ st o, (detectUnderflowAndReset st o).state.store.pendingTipLamports =
        st.store.pendingTipLamports)
    ∧ (∀ cfg st, (initTokenSwitch cfg st).store.pendingTipLamports = 0 ∨
        (initTokenSwitch cfg st).store.pendingTipLamports =
          st.store.pendingTipLamports)
    ∧ (∀ store paused diffUsd solUsd tr,
        ((tipJar store paused diffUsd solUsd tr).store.pendingTipLamports =
            store.pendingTipLamports ∨
          (0 < tipLam diffUsd solUsd ∧
            (tipJar store paused diffUsd solUsd tr).store.pendingTipLamports =
              store.pendingTipLamports + tipLam diffUsd solUsd) ∨
          (tipJar store paused diffUsd solUsd tr).store.pendingTipLamports = 0) ∧
        (tipLam diffUsd solUsd ≤ 0 →
          tipJar store paused diffUsd solUsd tr = ⟨store, false, false, .done⟩) ∧
        (tr ≠ .confirmedTip →
          (tipJar store paused diffUsd solUsd tr).store.pendingTipLamports =
            store.pendingTipLamports ∨
          (tipJar store paused diffUsd solUsd tr).store.pendingTipLamports =
            store.pendingTipLamports + tipLam diffUsd solUsd))
    ∧ (∀ cfg st env, 0 ≤ st.store.pendingTipLamports →
        0 ≤ (execSellAllV4 cfg st env).state.store.pendingTipLamports)
    ∧ (∀ st env, 0 ≤ st.store.pendingTipLamports →
        0 ≤ (execSellAllMid st env).state.store.pendingTipLamports)
    ∧ (∀ cfg st env, 0 ≤ st.store.pendingTipLamports →
        0 ≤ (tick cfg st env).1.store.pendingTipLamports) := by
  refine ⟨execBuy_tip, detectUnderflow_tip, ?_, ?_, execSellAllV4_tip_nonneg,
    execSellAllMid_tip_nonneg, tick_tip_nonneg⟩
  · intro cfg st
    simp only [initTokenSwitch]
    split
    · exact .inl rfl
    · exact .inr rfl
  · intro store paused diffUsd solUsd tr
    refine ⟨tipJar_pendingTip store paused diffUsd solUsd tr, ?_, ?_⟩
    · intro hle
      simp only [tipJar]
      rw [if_neg (by omega)]
    · intro hne
      simp only [tipJar]
      split
      · split
        · cases tr
          · exact .inr rfl
          · exact .inr rfl
          · exact absurd rfl hne
        · exact .inr rfl
      · exact .inl rfl

theorem c4_pending_tip_witness :
    0 ≤ sampleSt.store.pendingTipLamports ∧
    0 ≤ (tick sampleCfg sampleSt sampleEnv).1.store.pendingTipLamports :=
  ⟨by decide, c4_pending_tip.2.2.2.2.2.2 sampleCfg sampleSt sampleEnv (by decide)⟩

/-! ## C6 — the cost-weighted average price and the sell trigger -/

theorem list_sum_mul_div (buys : List BuyEntry) (M : ℚ) :
    (buys.map (fun b => b.price * ((b.tokensRaw : ℚ) / M))).sum =
      (buys.map (fun b => b.price * (b.tokensRaw : ℚ))).sum / M := by
  induction buys with
  | nil => simp
  | cons b bs ih => simp [ih, add_div, mul_div_assoc]

theorem sumTokensRaw_pos (buys : List BuyEntry) (hne : buys ≠ [])
    (hpos : ∀ b ∈ buys, 0 < b.tokensRaw) : 0 < sumTokensRaw buys := by
  refine List.sum_pos _ ?_ ?_
  · intro x hx
    rcases List.mem_map.mp hx with ⟨b, hb, rfl⟩
    exact hpos b hb
  · simpa using hne

theorem avgPrice_weighted (tokenMult : ℤ) (buys : List BuyEntry)
    (hM : tokenMult ≠ 0) (hne : buys ≠ []) (hpos : ∀ b ∈ buys, 0 < b.tokensRaw) :
    avgPrice tokenMult buys =
      (buys.map (fun b => b.price * (b.tokensRaw : ℚ))).sum /
        ((sumTokensRaw buys : ℤ) : ℚ) := by
  have hT : 0 < sumTokensRaw buys := sumTokensRaw_pos buys hne hpos
  have hTQ : ((sumTokensRaw buys : ℤ) : ℚ) ≠ 0 := by
    exact_mod_cast hT.ne'
  have hMQ : ((tokenMult : ℤ) : ℚ) ≠ 0 := Int.cast_ne_zero.mpr hM
  simp only [avgPrice, humanQ, if_neg hT.ne', list_sum_mul_div]
  rw [div_div_div_cancel_right₀]
  exact hMQ

/-- C6: for a non-empty ladder with positive asset amounts, `avgPrice` is the
cost-weighted average Σ(pᵢ·qᵢ)/Σqᵢ; for two buys it is the two-point formula;
and the per-tick sell trigger is that average times
`1 + sellProfitPct / 100`. -/
theorem c6_avg_cost :
    (∀ tokenMult buys, tokenMult ≠ 0 → buys ≠ [] → (∀ b ∈ buys, 0 < b.tokensRaw) →
      avgPrice tokenMult buys =
        (buys.map (fun b => b.price * (b.tokensRaw : ℚ))).sum /
          ((sumTokensRaw buys : ℤ) : ℚ))
    ∧ (∀ (tokenMult l0 l1 q0 q1 : ℤ) (p0 p1 : ℚ), tokenMult ≠ 0 → 0 < q0 → 0 < q1 →
      avgPrice tokenMult [⟨p0, l0, q0⟩, ⟨p1, l1, q1⟩] =
        (p0 * (q0 : ℚ) + p1 * (q1 : ℚ)) / ((q0 : ℚ) + (q1 : ℚ)))
    ∧ (∀ cfg tokenMult buys,
        sellTriggerOf cfg tokenMult buys =
          avgPrice tokenMult buys * (1 + cfg.sellProfitPct / 100)) := by
  refine ⟨avgPrice_weighted, ?_, fun cfg tokenMult buys => rfl⟩
  intro tokenMult l0 l1 q0 q1 p0 p1 hM hq0 hq1
  rw [avgPrice_weighted tokenMult _ hM (by simp) ?_]
  · simp [sumTokensRaw]
  · intro b hb
    simp only [List.mem_cons, List.not_mem_nil, or_false] at hb
    rcases hb with rfl | rfl
    · exact hq0
    · exact hq1

theorem c6_avg_cost_witness :
    avgPrice 10 [⟨1, 0, 2⟩, ⟨3, 0, 2⟩] = 2 := by
  have h := c6_avg_cost.2.1 10 0 0 2 2 1 3 (by norm_num) (by norm_num) (by norm_num)
  rw [h]
  norm_num

/-! ## C1 — ledger mutation only on confirmed settlement -/

theorem execBuy_threw_frame (st : BotState) (pro : Bool) (balance lamports : ℤ)
    (priceUSD : ℚ) (r : SwapResult) :
    (execBuy st pro balance lamports priceUSD r).threw = true →
      (execBuy st pro balance lamports priceUSD r).state = st := by
  cases r <;> simp only [execBuy] <;> split <;> (try split) <;> simp

theorem execBuy_append_iff (st : BotState) (pro : Bool) (balance lamports : ℤ)
    (priceUSD : ℚ) (r : SwapResult) (out : ℤ) :
    ((¬(pro = true ∧ balance < lamports)) ∧ r = SwapResult.submitted out true) ↔
      ((execBuy st pro balance lamports priceUSD r).threw = false ∧
        (execBuy st pro balance lamports priceUSD r).state.store.buys =
          st.store.buys ++ [⟨priceUSD, lamports, out⟩]) := by
  cases r <;> simp only [execBuy] <;> split <;> (try split) <;> simp_all

theorem tipJar_frame (store : StateStore) (paused : Bool) (diffUsd solUsd : ℚ)
    (tr : TipResult) :
    (tipJar store paused diffUsd solUsd tr).store.buys = store.buys ∧
    (tipJar store paused diffUsd solUsd tr).store.sells = store.sells ∧
    (tipJar store paused diffUsd solUsd tr).store.tokenMint = store.tokenMint := by
  simp only [tipJar]
  split
  · split
    · cases tr <;> exact ⟨rfl, rfl, rfl⟩
    · exact ⟨rfl, rfl, rfl⟩
  · exact ⟨rfl, rfl, rfl⟩

theorem execSellAllMid_unconfirmed (st : BotState) (env : SellEnv)
    (h : env.confirmed = false) :
    (execSellAllMid st env).state = st ∧
      ((execSellAllMid st env).submitted ≠ none →
        (execSellAllMid st env).threw = true) := by
  simp only [execSellAllMid]
  repeat' split
  all_goals simp_all

theorem execSellAllMid_cases (st : BotState) (env : SellEnv) :
    (execSellAllMid st env).state = st ∨
    (env.confirmed = true ∧
      (execSellAllMid st env).state.store.buys = [] ∧
      ∃ s, (execSellAllMid st env).state.store.sells = st.store.sells ++ [s]) := by
  by_cases hc : env.confirmed = false
  · exact .inl (execSellAllMid_unconfirmed st env hc).1
  · have hct : env.confirmed = true := by simpa using hc
    simp only [execSellAllMid]
    repeat' split
    all_goals first
      | exact .inl rfl
      | exact absurd (by assumption) hc
      | exact .inr ⟨hct, (tipJar_frame _ _ _ _ _).1, ⟨_, (tipJar_frame _ _ _ _ _).2.1⟩⟩

/-- C1: `execBuy` appends exactly one `BuyEntry` — the quoted `outAmount` at
the submitted size and price — if and only if a swap was submitted and its
confirmation succeeded within the deadline (and the pro-tier pre-check did
not throw); every throwing outcome leaves the state exactly as it was, and
`execBuy` never touches sells or the pending tip.  For the cited
`execSellAll`: an unconfirmed run leaves the state untouched and, when a swap
was submitted, throws; and every run either leaves the state untouched or is
a confirmed settlement that appends one `SellStat` and clears `buys`. -/
theorem c1_ledger_confirmed_only :
    (∀ st pro balance lamports priceUSD r out,
      ((¬(pro = true ∧ balance < lamports)) ∧ r = SwapResult.submitted out true) ↔
        ((execBuy st pro balance lamports priceUSD r).threw = false ∧
          (execBuy st pro balance lamports priceUSD r).state.store.buys =
            st.store.buys ++ [⟨priceUSD, lamports, out⟩]))
    ∧ (∀ st pro balance lamports priceUSD r,
        ((execBuy st pro balance lamports priceUSD r).threw = true →
          (execBuy st pro balance lamports priceUSD r).state = st) ∧
        (execBuy st pro balance lamports priceUSD r).state.store.sells =
          st.store.sells ∧
        (execBuy st pro balance lamports priceUSD r).state.store.pendingTipLamports =
          st.store.pendingTipLamports)
    ∧ (∀ st env, env.confirmed = false →
        (execSellAllMid st env).state = st ∧
        ((execSellAllMid st env).submitted ≠ none →
          (execSellAllMid st env).threw = true))
    ∧ (∀ st env,
        (execSellAllMid st env).state = st ∨
        (env.confirmed = true ∧
          (execSellAllMid st env).state.store.buys = [] ∧
          ∃ s, (execSellAllMid st env).state.store.sells = st.store.sells ++ [s])) :=
  ⟨fun st pro balance lamports priceUSD r out =>
      execBuy_append_iff st pro balance lamports priceUSD r out,
    fun st pro balance lamports priceUSD r =>
      ⟨execBuy_threw_frame st pro balance lamports priceUSD r,
        execBuy_sells st pro balance lamports priceUSD r,
        execBuy_tip st pro balance lamports priceUSD r⟩,
    execSellAllMid_unconfirmed,
    execSellAllMid_cases⟩

theorem c1_ledger_confirmed_only_witness :
    (execBuy sampleSt false 0 100 1 (.submitted 5 true)).threw = false ∧
    (execBuy sampleSt false 0 100 1 (.submitted 5 true)).state.store.buys =
      sampleSt.store.buys ++ [⟨1, 100, 5⟩] :=
  (c1_ledger_confirmed_only.1 sampleSt false 0 100 1 (.submitted 5 true) 5).mp
    ⟨by simp, rfl⟩

/-! ## C9 — the paused-for-funds flag -/

theorem execBuy_paused_iff (st : BotState) (pro : Bool) (balance lamports : ℤ)
    (priceUSD : ℚ) (r : SwapResult) :
    (execBuy st pro balance lamports priceUSD r).state.pausedForNoFunds = true ↔
      (st.pausedForNoFunds = true ∨
        (¬(pro = true ∧ balance < lamports) ∧ r = SwapResult.swapThrew true)) := by
  cases r <;> simp only [execBuy] <;> split <;> (try split) <;> simp_all

theorem tick_paused_no_rungBuy (cfg : BotConfig) (st : BotState) (env : TickEnv)
    (h : st.pausedForNoFunds = true) :
    ∀ lam, (tick cfg st env).2 ≠ TickAction.rungBuy lam := by
  intro lam hr
  simp only [tick] at hr
  by_cases hms : cfg.proVersion = true ∧ env.manualSale = true
  · rw [if_pos hms] at hr
    split at hr
    · simp at hr
    · have hp := (tickCore_rungBuy cfg _ env lam hr).2.1
      simp only at hp
      simp [h] at hp
  · rw [if_neg hms] at hr
    split at hr
    · simp at hr
    · have hp := (tickCore_rungBuy cfg _ env lam hr).2.1
      simp [h] at hp

theorem tipJar_paused (store : StateStore) (paused : Bool) (diffUsd solUsd : ℚ)
    (tr : TipResult) :
    ((tipJar store paused diffUsd solUsd tr).trace = SellTrace.done →
      (tipJar store paused diffUsd solUsd tr).paused = false) ∧
    ((tipJar store paused diffUsd solUsd tr).trace ≠ SellTrace.done →
      (tipJar store paused diffUsd solUsd tr).paused = paused) := by
  simp only [tipJar]
  split
  · split
    · cases tr
      · exact ⟨fun hh => by simp at hh, fun _ => rfl⟩
      · exact ⟨fun hh => by simp at hh, fun _ => rfl⟩
      · exact ⟨fun _ => rfl, fun hne => absurd rfl hne⟩
    · exact ⟨fun _ => rfl, fun hne => absurd rfl hne⟩
  · exact ⟨fun _ => rfl, fun hne => absurd rfl hne⟩

theorem execSellAllV4_paused (cfg : BotConfig) (st : BotState) (env : SellEnv) :
    ((execSellAllV4 cfg st env).trace = SellTrace.done →
      (execSellAllV4 cfg st env).state.pausedForNoFunds = false) ∧
    ((execSellAllV4 cfg st env).trace ≠ SellTrace.done →
      (execSellAllV4 cfg st env).state.pausedForNoFunds = st.pausedForNoFunds) := by
  simp only [execSellAllV4]
  repeat' split
  all_goals first
    | exact ⟨fun hh => by simp at hh, fun _ => rfl⟩
    | exact ⟨fun hh => (tipJar_paused _ _ _ _ _).1 hh,
        fun hh => (tipJar_paused _ _ _ _ _).2 hh⟩

/-- A ladder state whose pause flag is set while no buys are recorded (as
after an underflow or manual-sale reset that fired while paused). -/
def pausedEmptySt : BotState := ⟨⟨"MintA", [], [], 0⟩, true, 1000000⟩

/-- A paused state holding one rung. -/
def pausedLadderSt : BotState := ⟨⟨"MintA", [⟨1, 100, 50⟩], [], 0⟩, true, 1000000⟩

/-- A tick environment whose sell confirms but whose tip transfer does not. -/
def sellFailTipEnv : SellEnv :=
  ⟨50, 0, 10000000000, 10000000000, 1, true, .notConfirmed, 77⟩

def sellTickEnv : TickEnv := ⟨false, 50, 2, 0, .submitted 5 true, sellFailTipEnv⟩

def firstBuyEnv : TickEnv := ⟨false, 0, 1, 0, .submitted 5 true, sampleSellEnv⟩

/-- C9 counterexample, refuting two parts of the claim as stated.  First:
with the flag set and an empty ladder, a tick still executes (and records) a
first buy, so the flag does not suppress every buy action.  Second: a tick
whose sell reaches confirmed settlement (a `SellStat` is appended) but whose
tip transfer fails leaves the flag set, because the early return in the
tip-jar block skips the `pausedForNoFunds = false` statement. -/
theorem c9_counterexample :
    (pausedEmptySt.pausedForNoFunds = true ∧
      (tick sampleCfg pausedEmptySt firstBuyEnv).1.store.buys = [⟨1, 100, 5⟩]) ∧
    (pausedLadderSt.pausedForNoFunds = true ∧
      (tick sampleCfg pausedLadderSt sellTickEnv).2 = .sellAll ∧
      (tick sampleCfg pausedLadderSt sellTickEnv).1.store.sells.length = 1 ∧
      (tick sampleCfg pausedLadderSt sellTickEnv).1.pausedForNoFunds = true) := by
  constructor
  · refine ⟨rfl, ?_⟩
    norm_num [tick, tickCore, detectUnderflowAndReset, sumTokensRaw, execBuy,
      sampleCfg, pausedEmptySt, firstBuyEnv, Int.tdiv]
  · refine ⟨rfl, ?_, ?_, ?_⟩ <;>
      norm_num [tick, tickCore, detectUnderflowAndReset, sumTokensRaw, sumLamports,
        sellTriggerOf, avgPrice, humanQ, nextDropPct, execSellAllV4, tipJar, tipLam,
        sampleCfg, pausedLadderSt, sellTickEnv, sellFailTipEnv, Int.tdiv]

/-- C9 (amended): the pause flag is set by `execBuy` exactly when the flag
was already set or the swap attempt threw with "insufficient lamports" logs
(the pro-tier local pre-check throw does not set it); while the flag is set
no rung buy is executed on any tick — but an empty ladder's first buy is not
suppressed (see the counterexample); and a sell clears the flag exactly when
it runs to completion (`done`): a confirmed sell whose tip transfer fails or
is not confirmed leaves the flag as it was. -/
theorem c9_pause_flag :
    (∀ st pro balance lamports priceUSD r,
      (execBuy st pro balance lamports priceUSD r).state.pausedForNoFunds = true ↔
        (st.pausedForNoFunds = true ∨
          (¬(pro = true ∧ balance < lamports) ∧ r = SwapResult.swapThrew true)))
    ∧ (∀ cfg st env, st.pausedForNoFunds = true →
        ∀ lam, (tick cfg st env).2 ≠ TickAction.rungBuy lam)
    ∧ (∀ cfg st env,
        ((execSellAllV4 cfg st env).trace = SellTrace.done →
          (execSellAllV4 cfg st env).state.pausedForNoFunds = false) ∧
        ((execSellAllV4 cfg st env).trace ≠ SellTrace.done →
          (execSellAllV4 cfg st env).state.pausedForNoFunds =
            st.pausedForNoFunds)) :=
  ⟨execBuy_paused_iff, tick_paused_no_rungBuy, execSellAllV4_paused⟩

theorem c9_pause_flag_witness :
    pausedLadderSt.pausedForNoFunds = true ∧
    (tick sampleCfg pausedLadderSt sampleEnv).2 ≠ TickAction.rungBuy 200 :=
  ⟨rfl, c9_pause_flag.2.1 sampleCfg pausedLadderSt sampleEnv rfl 200⟩

/-! ## C2 — the no-buy-zone guard (spec-modelled tick) -/

theorem tickCoreNB_noBuyZone (cfg : BotConfig) (st0 : BotState) (env : TickEnv)
    (u : ℚ) (hb : cfg.bollingerNoBuy = true) (hp : u < env.price) :
    ∀ lam, (tickCoreNB cfg st0 env (some u)).2 ≠ TickAction.rungBuy lam := by
  intro lam hr
  simp only [tickCoreNB] at hr
  split at hr
  · simp at hr
  · split at hr
    · rw [if_pos ⟨hb, by simp [bandBlocks, hp]⟩] at hr
      simp at hr
    · split at hr <;> simp at hr

/-- C2: on any tick of the spec-modelled no-buy-zone decision loop whose
ladder is non-empty (Accumulating), if `bollingerNoBuy` is enabled, the
indicator band is available (`upperBandIs` requires a full window) with upper
band `u`, and the current price is strictly above `u`, then no rung buy is
executed — regardless of whether the price is at or below the buy trigger. -/
theorem c2_no_buy_zone :
    ∀ cfg st env (bb : BollingerBands) (u : ℚ),
      st.store.buys ≠ [] → cfg.bollingerNoBuy = true →
      upperBandIs bb u → u < env.price →
      ∀ lam, (tickNB cfg st env (some u)).2 ≠ TickAction.rungBuy lam := by
  intro cfg st env bb u _ hb _ hp lam hr
  simp only [tickNB] at hr
  by_cases hms : cfg.proVersion = true ∧ env.manualSale = true
  · rw [if_pos hms] at hr
    split at hr
    · simp at hr
    · exact tickCoreNB_noBuyZone cfg _ env u hb hp lam hr
  · rw [if_neg hms] at hr
    split at hr
    · simp at hr
    · exact tickCoreNB_noBuyZone cfg _ env u hb hp lam hr

/-- A full two-sample window of constant price 3: its upper band is exactly
3. -/
def bandSample : BollingerBands := ⟨2, 3 / 2, [3, 3]⟩

def nbTickEnv : TickEnv := ⟨false, 50, 4, 0, .submitted 5 true, sampleSellEnv⟩

theorem c2_no_buy_zone_witness :
    sampleSt.store.buys ≠ [] ∧ sampleCfg.bollingerNoBuy = true ∧
    upperBandIs bandSample 3 ∧ (3 : ℚ) < nbTickEnv.price ∧
    (tickNB sampleCfg sampleSt nbTickEnv (some 3)).2 ≠ TickAction.rungBuy 200 := by
  have hband : upperBandIs bandSample 3 := by
    refine ⟨3, 0, ?_, ⟨0, ?_, le_refl 0, by ring⟩, by norm_num⟩
    · norm_num [meanO, bandSample]
    · norm_num [varianceO, meanO, bandSample]
  refine ⟨by simp [sampleSt], rfl, hband, by norm_num [nbTickEnv], ?_⟩
  exact c2_no_buy_zone sampleCfg sampleSt nbTickEnv bandSample 3
    (by simp [sampleSt]) rfl hband (by norm_num [nbTickEnv]) 200

/-! ## C7 — the rolling indicator -/

theorem observeAll_period (l : List ℚ) (bb : BollingerBands) :
    (observeAll bb l).period = bb.period := by
  induction l generalizing bb with
  | nil => rfl
  | cons x xs ih => exact (ih (addPrice bb x)).trans rfl

theorem observeAll_stdDevMultiplier (l : List ℚ) (bb : BollingerBands) :
    (observeAll bb l).stdDevMultiplier = bb.stdDevMultiplier := by
  induction l generalizing bb with
  | nil => rfl
  | cons x xs ih => exact (ih (addPrice bb x)).trans rfl

theorem observeAll_prices_aux (l : List ℚ) (bb : BollingerBands)
    (hn : 1 ≤ bb.period) (hlen : bb.prices.length ≤ bb.period) :
    (observeAll bb l).prices =
      (bb.prices ++ l).drop (bb.prices.length + l.length - bb.period) := by
  induction l generalizing bb with
  | nil =>
    have h0 : bb.prices.length + ([] : List ℚ).length - bb.period = 0 := by
      simp only [List.length_nil]
      omega
    rw [h0]
    simp [observeAll]
  | cons x xs ih =>
    have hstep : observeAll bb (x :: xs) = observeAll (addPrice bb x) xs := rfl
    rw [hstep]
    by_cases hfull : bb.period < bb.prices.length + 1
    · have hlen2 : bb.prices.length = bb.period := by omega
      obtain ⟨p, rest, hpr⟩ : ∃ p rest, bb.prices = p :: rest := by
        cases hbp : bb.prices with
        | nil =>
          rw [hbp] at hlen2
          simp at hlen2
          omega
        | cons a as => exact ⟨a, as, rfl⟩
      have hrl : rest.length + 1 = bb.period := by
        rw [hpr] at hlen2
        simpa using hlen2
      have haddp : (addPrice bb x).prices = rest ++ [x] := by
        simp only [addPrice, hpr]
        rw [if_pos]
        · simp
        · simp only [List.length_append, List.length_cons, List.length_nil]
          omega
      have ihx := ih (addPrice bb x) hn
        (by rw [haddp]
            show (rest ++ [x]).length ≤ bb.period
            simp only [List.length_append, List.length_cons, List.length_nil]
            omega)
      rw [ihx, haddp]
      simp only [show (addPrice bb x).period = bb.period from rfl]
      have hidx1 : (rest ++ [x]).length + xs.length - bb.period = xs.length := by
        simp only [List.length_append, List.length_cons, List.length_nil]
        omega
      have hidx2 : bb.prices.length + (x :: xs).length - bb.period =
          xs.length + 1 := by
        simp only [List.length_cons]
        omega
      rw [hidx1, hidx2, hpr]
      rw [List.append_assoc, List.singleton_append]
      rw [show (p :: rest) ++ x :: xs = p :: (rest ++ x :: xs) from rfl]
      rw [List.drop_succ_cons]
    · have haddp : (addPrice bb x).prices = bb.prices ++ [x] := by
        simp only [addPrice]
        rw [if_neg]
        simp only [List.length_append, List.length_cons, List.length_nil]
        omega
      have ihx := ih (addPrice bb x)
        (by rw [show (addPrice bb x).period = bb.period from rfl]; exact hn)
        (by rw [haddp, show (addPrice bb x).period = bb.period from rfl]
            simp only [List.length_append, List.length_cons, List.length_nil]
            omega)
      rw [ihx, haddp]
      simp only [show (addPrice bb x).period = bb.period from rfl]
      have hidx : (bb.prices ++ [x]).length + xs.length - bb.period =
          bb.prices.length + (x :: xs).length - bb.period := by
        simp only [List.length_append, List.length_cons, List.length_nil]
        omega
      rw [hidx, List.append_assoc, List.singleton_append]

theorem observeAll_prices (n : ℕ) (k : ℚ) (l : List ℚ) (hn : 1 ≤ n) :
    (observeAll ⟨n, k, []⟩ l).prices = l.drop (l.length - n) := by
  have h := observeAll_prices_aux l ⟨n, k, []⟩ hn (by simp)
  simpa using h

theorem meanO_observeAll (n : ℕ) (k : ℚ) (l : List ℚ) (hn : 1 ≤ n)
    (hful : n ≤ l.length) :
    meanO (observeAll ⟨n, k, []⟩ l) =
      some ((l.drop (l.length - n)).sum / (n : ℚ)) := by
  have hp := observeAll_prices n k l hn
  have hper := observeAll_period l ⟨n, k, []⟩
  have hlen : (observeAll ⟨n, k, []⟩ l).prices.length = n := by
    rw [hp, List.length_drop]
    omega
  rw [show meanO (observeAll ⟨n, k, []⟩ l) =
      (if (observeAll ⟨n, k, []⟩ l).prices.length < (observeAll ⟨n, k, []⟩ l).period
        then none
        else some ((observeAll ⟨n, k, []⟩ l).prices.sum /
          ((observeAll ⟨n, k, []⟩ l).prices.length : ℚ))) from rfl]
  rw [hlen, hper, if_neg (lt_irrefl n), hp]

/-- C7: the indicator is unavailable (mean, variance, spread and both bands)
below `period` samples; once at least `period` samples have been observed the
window holds exactly the last `period` of them (oldest-first eviction) and
the mean is their arithmetic mean; the variance under the spread divides by
the window length N (population, not N−1); and for exactly `period` identical
observations of value `p` the spread is 0 and both bands equal the mean,
which equals `p`. -/
theorem c7_indicator :
    (∀ bb : BollingerBands, bb.prices.length < bb.period →
      meanO bb = none ∧ varianceO bb = none ∧ (∀ s, ¬ spreadIs bb s) ∧
      (∀ u, ¬ upperBandIs bb u) ∧ (∀ v, ¬ lowerBandIs bb v))
    ∧ (∀ (n : ℕ) (k : ℚ) (l : List ℚ), 1 ≤ n → n ≤ l.length →
      (observeAll ⟨n, k, []⟩ l).prices = l.drop (l.length - n) ∧
      meanO (observeAll ⟨n, k, []⟩ l) =
        some ((l.drop (l.length - n)).sum / (n : ℚ)))
    ∧ (∀ (bb : BollingerBands) (m : ℚ), meanO bb = some m →
      varianceO bb =
        some ((bb.prices.map (fun p => (p - m) ^ 2)).sum / (bb.prices.length : ℚ)))
    ∧ (∀ (n : ℕ) (k : ℚ) (p : ℚ), 1 ≤ n →
      meanO (observeAll ⟨n, k, []⟩ (List.replicate n p)) = some p ∧
      spreadIs (observeAll ⟨n, k, []⟩ (List.replicate n p)) 0 ∧
      (∀ s, spreadIs (observeAll ⟨n, k, []⟩ (List.replicate n p)) s → s = 0) ∧
      (∀ u, upperBandIs (observeAll ⟨n, k, []⟩ (List.replicate n p)) u ↔ u = p) ∧
      (∀ v, lowerBandIs (observeAll ⟨n, k, []⟩ (List.replicate n p)) v ↔ v = p)) := by
  have hvarFormula : ∀ (bb : BollingerBands) (m : ℚ), meanO bb = some m →
      varianceO bb =
        some ((bb.prices.map (fun p => (p - m) ^ 2)).sum /
          (bb.prices.length : ℚ)) := by
    intro bb m hm
    simp [varianceO, hm]
  refine ⟨?_, fun n k l hn hful =>
      ⟨observeAll_prices n k l hn, meanO_observeAll n k l hn hful⟩,
    hvarFormula, ?_⟩
  · intro bb h
    have hm : meanO bb = none := by simp [meanO, h]
    have hv : varianceO bb = none := by simp [varianceO, hm]
    refine ⟨hm, hv, ?_, ?_, ?_⟩
    · rintro s ⟨v, hvs, -, -⟩
      rw [hv] at hvs
      exact Option.noConfusion hvs
    · rintro u ⟨m, s, hms, -, -⟩
      rw [hm] at hms
      exact Option.noConfusion hms
    · rintro v ⟨m, s, hms, -, -⟩
      rw [hm] at hms
      exact Option.noConfusion hms
  · intro n k p hn
    have hn0 : (n : ℚ) ≠ 0 := by
      exact_mod_cast Nat.one_le_iff_ne_zero.mp hn
    have hlenrep : (List.replicate n p).length = n := List.length_replicate n p
    have hp0 : (observeAll ⟨n, k, []⟩ (List.replicate n p)).prices =
        List.replicate n p := by
      have := observeAll_prices n k (List.replicate n p) hn
      rw [hlenrep] at this
      simpa using this
    have hm : meanO (observeAll ⟨n, k, []⟩ (List.replicate n p)) = some p := by
      have := meanO_observeAll n k (List.replicate n p) hn (by rw [hlenrep])
      rw [hlenrep] at this
      simp only [Nat.sub_self, List.drop_zero] at this
      rw [this, List.sum_replicate, nsmul_eq_mul, mul_div_cancel_left₀ p hn0]
    have hv : varianceO (observeAll ⟨n, k, []⟩ (List.replicate n p)) = some 0 := by
      rw [hvarFormula _ p hm, hp0]
      simp
    have hs0 : spreadIs (observeAll ⟨n, k, []⟩ (List.replicate n p)) 0 :=
      ⟨0, hv, le_refl 0, by ring⟩
    have huniq : ∀ s, spreadIs (observeAll ⟨n, k, []⟩ (List.replicate n p)) s →
        s = 0 := by
      rintro s ⟨v, hvs, -, hs2⟩
      rw [hv] at hvs
      cases hvs
      exact sq_eq_zero_iff.mp hs2
    refine ⟨hm, hs0, huniq, ?_, ?_⟩
    · intro u
      constructor
      · rintro ⟨m, s, hms, hsp, hu⟩
        rw [hm] at hms
        cases hms
        rw [huniq s hsp] at hu
        rw [hu]
        ring
      · rintro rfl
        exact ⟨_, 0, hm, hs0, by ring⟩
    · intro v
      constructor
      · rintro ⟨m, s, hms, hsp, hvv⟩
        rw [hm] at hms
        cases hms
        rw [huniq s hsp] at hvv
        rw [hvv]
        ring
      · rintro rfl
        exact ⟨_, 0, hm, hs0, by ring⟩

theorem c7_indicator_witness :
    (1 : ℕ) ≤ 2 ∧
    meanO (observeAll ⟨2, 3 / 2, []⟩ (List.replicate 2 (5 : ℚ))) = some 5 ∧
    spreadIs (observeAll ⟨2, 3 / 2, []⟩ (List.replicate 2 (5 : ℚ))) 0 := by
  have h := c7_indicator.2.2.2 2 (3 / 2) 5 (by norm_num)
  exact ⟨by norm_num, h.1, h.2.1⟩

/-! ## C8 — the persisted-state round-trip -/

/-- The shape of a revived buy entry: the tagged `tokensRaw` string has become
a BigInt. -/
def revivedBuy (b : BuyEntry) : JVal :=
  .obj [("price", .num b.price), ("lamports", .num (b.lamports : ℚ)),
        ("tokensRaw", .big b.tokensRaw)]

theorem revive_encodeBuy (b : BuyEntry) :
    revive (encodeBuy b) = some (revivedBuy b) := rfl

theorem revive_encodeSell (s : SellStat) :
    revive (encodeSell s) = some (encodeSell s) := rfl

theorem revList_encodeBuy (buys : List BuyEntry) :
    revive.revList (buys.map encodeBuy) = some (buys.map revivedBuy) := by
  induction buys with
  | nil => rfl
  | cons b bs ih =>
    simp only [List.map_cons, revive.revList, revive_encodeBuy, ih,
      Option.bind_eq_bind, Option.some_bind]
    rfl

theorem revList_encodeSell (sells : List SellStat) :
    revive.revList (sells.map encodeSell) = some (sells.map encodeSell) := by
  induction sells with
  | nil => rfl
  | cons s ss ih =>
    simp only [List.map_cons, revive.revList, revive_encodeSell, ih,
      Option.bind_eq_bind, Option.some_bind]
    rfl

theorem revive_stateSave (st : StateStore) (h : endsWithN st.tokenMint = false) :
    revive (stateSave st) = some (JVal.obj
      [("tokenMint", .str st.tokenMint),
       ("buys", .arr (st.buys.map revivedBuy)),
       ("sells", .arr (st.sells.map encodeSell)),
       ("pendingTipLamports", .big st.pendingTipLamports)]) := by
  simp only [stateSave, revive, revive.revFields, revive.revList, h,
    Bool.false_eq_true, if_false, revList_encodeBuy, revList_encodeSell,
    Option.bind_eq_bind, Option.some_bind]
  rfl

theorem decodeBuy_revived (b : BuyEntry) : decodeBuy (revivedBuy b) = some b := by
  simp [decodeBuy, revivedBuy, lookupField, Rat.den_intCast, Rat.num_intCast]

theorem decodeSell_revived (s : SellStat) :
    decodeSell (encodeSell s) = some s := by
  simp [decodeSell, encodeSell, lookupField, Rat.den_intCast, Rat.num_intCast]

theorem mapM_loop_decodeBuy (buys : List BuyEntry) (acc : List BuyEntry) :
    List.mapM.loop decodeBuy (buys.map revivedBuy) acc =
      some (acc.reverse ++ buys) := by
  induction buys generalizing acc with
  | nil => simp [List.mapM.loop]
  | cons b bs ih =>
    simp only [List.map_cons, List.mapM.loop, decodeBuy_revived,
      Option.bind_eq_bind, Option.some_bind, ih]
    simp

theorem mapM_loop_decodeSell (sells : List SellStat) (acc : List SellStat) :
    List.mapM.loop decodeSell (sells.map encodeSell) acc =
      some (acc.reverse ++ sells) := by
  induction sells generalizing acc with
  | nil => simp [List.mapM.loop]
  | cons s ss ih =>
    simp only [List.map_cons, List.mapM.loop, decodeSell_revived,
      Option.bind_eq_bind, Option.some_bind, ih]
    simp

theorem mapM_decodeBuy (buys : List BuyEntry) :
    (buys.map revivedBuy).mapM decodeBuy = some buys := by
  simpa using mapM_loop_decodeBuy buys []

theorem mapM_decodeSell (sells : List SellStat) :
    (sells.map encodeSell).mapM decodeSell = some sells := by
  simpa using mapM_loop_decodeSell sells []

/-- C8 (amended): `save()` followed by `load()` restores the `StateStore`
exactly — the `bigint` fields reaching the loader through the type-tagged
string encoding without loss, unambiguously distinguished from ordinary
numeric fields — provided the `tokenMint` string does not end with the
character `n`; a mint ending in `n` is itself mistaken for the tag (see the
counterexample). -/
theorem c8_round_trip :
    ∀ st : StateStore, endsWithN st.tokenMint = false →
      saveLoad st = Except.ok st := by
  intro st h
  simp only [saveLoad, revive_stateSave st h]
  simp [decodeStateStore, lookupField, mapM_decodeBuy, mapM_decodeSell,
    mapM_loop_decodeBuy, mapM_loop_decodeSell]

/-- A persisted mint address whose text ends in the letter `n` (base58
addresses can): the loader's reviver takes it for a tagged bigint and
`BigInt("zz")` throws, so `load` quarantines the snapshot and starts fresh —
the state is not restored. -/
def badMintState : StateStore := ⟨"zzn", [], [], 0⟩

def goodState : StateStore := ⟨"Mint", [⟨1 / 2, 100, 7⟩], [⟨5, 1, 2, 3⟩], 42⟩

/-- C8 counterexample: the loader does NOT unambiguously distinguish the
`n`-tagged encoding from ordinary string fields — saving a state whose
tracked mint is the string `"zzn"` and loading it back does not restore the
state: the reviver throws and the snapshot is quarantined. -/
theorem c8_counterexample :
    endsWithN badMintState.tokenMint = true ∧
    saveLoad badMintState = Except.error () ∧
    saveLoad badMintState ≠ Except.ok badMintState := by
  refine ⟨rfl, rfl, ?_⟩
  intro hcontra
  have h2 : (Except.error () : Except Unit StateStore) = Except.ok badMintState :=
    (rfl : saveLoad badMintState = Except.error ()).symm.trans hcontra
  exact Except.noConfusion h2

theorem c8_round_trip_witness :
    endsWithN goodState.tokenMint = false ∧
    saveLoad goodState = Except.ok goodState :=
  ⟨rfl, c8_round_trip goodState rfl⟩
